import Mathlib

/-!
Verification of the session-authentication tracker in
`src/services/authentication/auth_manager.py` (class `AuthenticationManager`).

Embedding conventions:
* The store `self.authenticated_sessions : Dict[str, Tuple[str, float]]` is
  modelled as an association list `SessionStore` that mirrors Python dict
  semantics: unique keys (the `WFStore` invariant, which holds for every store
  reachable from `{}`), insertion order preserved, assignment to an existing
  key replaces the value in place, assignment to a fresh key appends.
* `time.time()` is modelled by an explicit integer parameter `now` passed to
  each operation that reads the clock; `cleanup_expired_sessions` reads the
  clock once at entry, hence takes a single `now`.
* Timestamps are integers (`Int`); the Python floats only ever meet `-` and
  comparison against `SESSION_TIMEOUT`, which the integer model preserves.
* `json.loads(tool_call["function"]["arguments"])` is a Python stdlib call on
  an opaque payload string; its outcome is modelled by `ArgsPayload`:
  `obj fields` for a payload parsing to a JSON object (string-valued fields,
  as `validate_pin` arguments are), `nonObj` for a payload that parses
  successfully to a non-object value (e.g. the string "[1]"), and `invalid`
  for a payload on which `json.loads` raises `JSONDecodeError`.
  Only `JSONDecodeError` is caught by the source's `except` clause; on a
  `nonObj` payload the subsequent `args.get("pin")` raises an uncaught
  `AttributeError`, modelled by `Except.error PyError.attributeError`.
* `str.isdigit` is modelled at ASCII fidelity (`pyIsDigit`).
-/

/-- A value of the store: the pair `(account_number, last_activity)` stored in
`self.authenticated_sessions[session_id]`. -/
structure SessionRecord where
  account : String
  lastActivity : Int
deriving Repr, DecidableEq

/-- The store `self.authenticated_sessions`, as an insertion-ordered
association list. -/
abbrev SessionStore := List (String × SessionRecord)

/-- `SESSION_TIMEOUT = 15 * 60` from the source. -/
def SESSION_TIMEOUT : Int := 15 * 60

/-- Python dict membership/lookup `store[sid]`: first (in a well-formed store,
only) entry whose key is `sid`. -/
def storeLookup : SessionStore → String → Option SessionRecord
  | [], _ => none
  | (k, r) :: rest, sid => if k = sid then some r else storeLookup rest sid

/-- Python dict assignment `store[sid] = rec`: replace in place when the key
is present, append when it is not. -/
def storeInsert : SessionStore → String → SessionRecord → SessionStore
  | [], sid, rec => [(sid, rec)]
  | (k, r) :: rest, sid, rec =>
      if k = sid then (sid, rec) :: rest else (k, r) :: storeInsert rest sid rec

/-- Python dict deletion `del store[sid]` (no-op when the key is absent, as in
the guarded deletion loop of `cleanup_expired_sessions`). -/
def storeDelete (store : SessionStore) (sid : String) : SessionStore :=
  store.filter fun p => decide (p.1 ≠ sid)

/-- The dict invariant: keys are unique. Every store reachable from the empty
store of `__init__` satisfies it. -/
abbrev WFStore (store : SessionStore) : Prop := (store.map Prod.fst).Nodup

/-- `authenticate_session`: `self.authenticated_sessions[session_id] =
(account_number, time.time())`. -/
def authenticate_session (store : SessionStore) (sid account : String)
    (now : Int) : SessionStore :=
  storeInsert store sid ⟨account, now⟩

/-- `get_authenticated_account`: return the stored account number, `None` when
no record exists; expiry is not consulted. -/
def get_authenticated_account (store : SessionStore) (sid : String) :
    Option String :=
  (storeLookup store sid).map SessionRecord.account

/-- `is_authenticated`: `False` when no record exists, otherwise
`(time.time() - last_activity) <= SESSION_TIMEOUT`. Pure read. -/
def is_authenticated (store : SessionStore) (sid : String) (now : Int) : Bool :=
  match storeLookup store sid with
  | none => false
  | some rec => decide (now - rec.lastActivity ≤ SESSION_TIMEOUT)

/-- `update_session_activity`: when a record exists, rewrite it with the same
account and the current time; otherwise do nothing. -/
def update_session_activity (store : SessionStore) (sid : String)
    (now : Int) : SessionStore :=
  match storeLookup store sid with
  | none => store
  | some rec => storeInsert store sid ⟨rec.account, now⟩

/-- The expiry test of the collection loop of `cleanup_expired_sessions`:
`current_time - last_activity > SESSION_TIMEOUT`. -/
def isExpired (now : Int) (p : String × SessionRecord) : Bool :=
  decide (SESSION_TIMEOUT < now - p.2.lastActivity)

/-- The deletion loop of `cleanup_expired_sessions`: delete each collected id
in order. -/
def deleteAll : List String → SessionStore → SessionStore
  | [], store => store
  | sid :: rest, store => deleteAll rest (storeDelete store sid)

/-- `cleanup_expired_sessions`: read the clock once, collect the ids of the
expired entries in iteration order, delete them, return the collected ids. -/
def cleanup_expired_sessions (store : SessionStore) (now : Int) :
    List String × SessionStore :=
  ((store.filter (isExpired now)).map Prod.fst,
    deleteAll ((store.filter (isExpired now)).map Prod.fst) store)

/-- `end_session`: delete the record and return `True` when present, return
`False` otherwise. -/
def end_session (store : SessionStore) (sid : String) : Bool × SessionStore :=
  match storeLookup store sid with
  | some _ => (true, storeDelete store sid)
  | none => (false, store)

/- Association-list lemmas. -/

theorem storeLookup_insert_self (store : SessionStore) (sid : String)
    (rec : SessionRecord) :
    storeLookup (storeInsert store sid rec) sid = some rec := by
  induction store with
  | nil => simp [storeInsert, storeLookup]
  | cons p rest ih =>
    obtain ⟨k, r⟩ := p
    by_cases h : k = sid
    · simp [storeInsert, storeLookup, h]
    · simp [storeInsert, storeLookup, h, ih]

theorem storeLookup_insert_other (store : SessionStore) (sid sid2 : String)
    (rec : SessionRecord) (h : sid2 ≠ sid) :
    storeLookup (storeInsert store sid rec) sid2 = storeLookup store sid2 := by
  induction store with
  | nil => simp [storeInsert, storeLookup, Ne.symm h]
  | cons p rest ih =>
    obtain ⟨k, r⟩ := p
    by_cases hk : k = sid
    · subst hk
      simp [storeInsert, storeLookup, Ne.symm h]
    · simp [storeInsert, storeLookup, hk, ih]

theorem storeLookup_eq_none_iff (store : SessionStore) (sid : String) :
    storeLookup store sid = none ↔ sid ∉ store.map Prod.fst := by
  induction store with
  | nil => simp [storeLookup]
  | cons p rest ih =>
    obtain ⟨k, r⟩ := p
    by_cases h : k = sid
    · subst h
      simp [storeLookup]
    · simp [storeLookup, h, ih, List.mem_cons, Ne.symm h]

theorem mem_of_storeLookup_eq_some {store : SessionStore} {sid : String}
    {rec : SessionRecord} (h : storeLookup store sid = some rec) :
    (sid, rec) ∈ store := by
  induction store with
  | nil => simp [storeLookup] at h
  | cons p rest ih =>
    obtain ⟨k, r⟩ := p
    by_cases hk : k = sid
    · subst hk
      simp [storeLookup] at h
      simp [h]
    · simp [storeLookup, hk] at h
      exact List.mem_cons_of_mem _ (ih h)

theorem storeLookup_eq_some_of_mem {store : SessionStore}
    (hwf : WFStore store) {sid : String} {rec : SessionRecord}
    (h : (sid, rec) ∈ store) : storeLookup store sid = some rec := by
  induction store with
  | nil => simp at h
  | cons p rest ih =>
    obtain ⟨k, r⟩ := p
    rw [show WFStore ((k, r) :: rest) = (k :: rest.map Prod.fst).Nodup from rfl,
      List.nodup_cons] at hwf
    rcases List.mem_cons.mp h with heq | hmem
    · injection heq with h1 h2
      subst h1
      subst h2
      simp [storeLookup]
    · have hk : ¬k = sid := by
        intro hk2
        apply hwf.1
        rw [hk2]
        exact List.mem_map_of_mem Prod.fst hmem
      rw [storeLookup, if_neg hk]
      exact ih hwf.2 hmem

theorem storeLookup_delete_self (store : SessionStore) (sid : String) :
    storeLookup (storeDelete store sid) sid = none := by
  induction store with
  | nil => rfl
  | cons p rest ih =>
    obtain ⟨k, r⟩ := p
    rw [storeDelete, List.filter_cons]
    by_cases h : k = sid
    · rw [if_neg (by simp [h])]
      exact ih
    · rw [if_pos (by simp [h]), storeLookup, if_neg h]
      exact ih

theorem deleteAll_eq_filter (ids : List String) (store : SessionStore) :
    deleteAll ids store = store.filter fun p => decide (p.1 ∉ ids) := by
  induction ids generalizing store with
  | nil => simp [deleteAll]
  | cons i is ih =>
    rw [deleteAll, ih, storeDelete, List.filter_filter]
    apply List.filter_congr
    intro p _
    by_cases h1 : p.1 = i <;> by_cases h2 : p.1 ∈ is <;> simp [h1, h2]

theorem storeLookup_filter_of_mem_erased (store : SessionStore)
    (f : String × SessionRecord → Bool) (sid : String)
    (h : ∀ p ∈ store, p.1 = sid → f p = false) :
    storeLookup (store.filter f) sid = none := by
  induction store with
  | nil => rfl
  | cons p rest ih =>
    obtain ⟨k, r⟩ := p
    rw [List.filter_cons]
    by_cases hk : k = sid
    · rw [if_neg (by simp [h (k, r) (List.mem_cons_self _ _) hk])]
      exact ih fun q hq => h q (List.mem_cons_of_mem _ hq)
    · by_cases hf : f (k, r) = true
      · rw [if_pos hf, storeLookup, if_neg hk]
        exact ih fun q hq => h q (List.mem_cons_of_mem _ hq)
      · rw [if_neg hf]
        exact ih fun q hq => h q (List.mem_cons_of_mem _ hq)

/- Conversation / PIN-extraction model (`get_cached_pin_from_conversation`). -/

/-- Outcome of `json.loads` on the serialized `arguments` payload of a tool
call. `obj fields` : the payload parses to a JSON object (the fields of the
resulting dict, string-valued as `validate_pin` arguments are; keys unique as
in a Python dict). `nonObj` : the payload parses successfully but to a
non-object value such as a list or number (e.g. the payload "[1]").
`invalid` : `json.loads` raises `json.JSONDecodeError` (e.g. the payload
"not-json"). -/
inductive ArgsPayload where
  | obj (fields : List (String × String))
  | nonObj
  | invalid
deriving Repr, DecidableEq

/-- The uncaught Python exceptions the extraction scan can raise:
`args.get("pin")` on a non-dict `json.loads` result raises `AttributeError`,
which the `except json.JSONDecodeError` clause does not catch. -/
inductive PyError where
  | attributeError
deriving Repr, DecidableEq

/-- The `tool_call["function"]` record: a function name and its serialized
arguments payload (represented by its parse outcome). -/
structure ToolFunction where
  name : String
  arguments : ArgsPayload
deriving Repr, DecidableEq

/-- One entry of `msg["tool_calls"]`. -/
structure ToolCall where
  function : ToolFunction
deriving Repr, DecidableEq

/-- A conversation message: a `role`, a `content`, and optionally a
`tool_calls` list (`none` models absence of the `"tool_calls"` key). -/
structure Message where
  role : String
  content : String
  tool_calls : Option (List ToolCall)
deriving Repr, DecidableEq

/-- Python `str.isdigit` at ASCII fidelity: nonempty and every character a
decimal digit (phrased over the character list so that it computes by
structural recursion). -/
def pyIsDigit (s : String) : Bool :=
  !s.data.isEmpty && s.data.all Char.isDigit

/-- The inner loop `for tool_call in msg["tool_calls"]`: for each call named
`"validate_pin"`, `json.loads` the payload — a `JSONDecodeError` is caught and
the loop continues; a non-object parse makes `args.get("pin")` raise an
uncaught `AttributeError`; otherwise a present, non-empty (truthy) `pin`
field is returned. -/
def scanToolCalls : List ToolCall → Except PyError (Option String)
  | [] => .ok none
  | tc :: rest =>
    if tc.function.name = "validate_pin" then
      match tc.function.arguments with
      | .invalid => scanToolCalls rest
      | .nonObj => .error .attributeError
      | .obj fields =>
        match fields.lookup "pin" with
        | some pin => if pin = "" then scanToolCalls rest else .ok (some pin)
        | none => scanToolCalls rest
    else scanToolCalls rest

/-- The outer loop `for msg in reversed(conversation)`, applied to the
already-reversed message list: a user message whose content is exactly four
digits returns that content; an assistant message with tool calls runs the
inner loop, propagating a found pin or an uncaught error and otherwise
falling through to the next (older) message. -/
def scanMessages : List Message → Except PyError (Option String)
  | [] => .ok none
  | msg :: rest =>
    if msg.role = "user" ∧ msg.content.length = 4 ∧ pyIsDigit msg.content then
      .ok (some msg.content)
    else if msg.role = "assistant" then
      match msg.tool_calls with
      | some tcs =>
        match scanToolCalls tcs with
        | .ok none => scanMessages rest
        | r => r
      | none => scanMessages rest
    else scanMessages rest

/-- `get_cached_pin_from_conversation`: scan the messages from most recent to
oldest; `.ok (some pin)` models returning a pin, `.ok none` models returning
`None`, `.error e` models an uncaught exception. -/
def get_cached_pin_from_conversation (conversation : List Message) :
    Except PyError (Option String) :=
  scanMessages conversation.reverse

/-- C1: `is_authenticated(s)` returns true iff a record for `s` exists in the
store and `now - last_activity <= SESSION_TIMEOUT` (= 900, boundary
inclusive). The operation is a pure read: its embedding consumes the store
and produces only a `Bool`, mirroring the source, which performs no
assignment or deletion on any branch, expired records included. -/
theorem is_authenticated_spec (store : SessionStore) (sid : String)
    (now : Int) :
    is_authenticated store sid now = true ↔
      ∃ rec, storeLookup store sid = some rec ∧
        now - rec.lastActivity ≤ SESSION_TIMEOUT := by
  rcases h : storeLookup store sid with _ | rec
  · simp [is_authenticated, h]
  · simp [is_authenticated, h]

/-- C7: `authenticate_session(s, a)` writes the record for `s` (inserting or
overwriting: the statement holds for every prior store, so an existing record
is simply replaced) with account `a` and the current timestamp, with no error
outcome; immediately afterwards `get_authenticated_account(s)` returns `a`
and `is_authenticated(s)` is true. -/
theorem authenticate_session_spec (store : SessionStore) (sid account : String)
    (now : Int) :
    storeLookup (authenticate_session store sid account now) sid
        = some ⟨account, now⟩
    ∧ get_authenticated_account (authenticate_session store sid account now) sid
        = some account
    ∧ is_authenticated (authenticate_session store sid account now) sid now
        = true := by
  have h := storeLookup_insert_self store sid ⟨account, now⟩
  refine ⟨h, ?_, ?_⟩
  · simp [get_authenticated_account, authenticate_session, h]
  · simp [is_authenticated, authenticate_session, h, SESSION_TIMEOUT]

/-- C3: `get_authenticated_account(s)` returns the stored account number
whenever a record for `s` exists, without consulting expiry, and `none` when
no record exists; in particular, when more than `SESSION_TIMEOUT` seconds
have elapsed since the record's `last_activity`, `is_authenticated(s)` is
false while `get_authenticated_account(s)` still returns the account. -/
theorem get_authenticated_account_spec (store : SessionStore) (sid : String) :
    (∀ rec, storeLookup store sid = some rec →
      get_authenticated_account store sid = some rec.account)
    ∧ (storeLookup store sid = none →
        get_authenticated_account store sid = none)
    ∧ ∀ rec now, storeLookup store sid = some rec →
        SESSION_TIMEOUT < now - rec.lastActivity →
        is_authenticated store sid now = false
          ∧ get_authenticated_account store sid = some rec.account := by
  refine ⟨?_, ?_, ?_⟩
  · intro rec h
    simp [get_authenticated_account, h]
  · intro h
    simp [get_authenticated_account, h]
  · intro rec now h hexp
    refine ⟨?_, by simp [get_authenticated_account, h]⟩
    simp only [is_authenticated, h, decide_eq_false_iff_not, not_le]
    exact hexp

/-- Witness for C3: a record authenticated at time 0 queried at time 1000
(past the 900-second timeout) is no longer authenticated, yet its account is
still returned. -/
theorem get_authenticated_account_spec_witness :
    is_authenticated [("s", ⟨"ACC1", 0⟩)] "s" 1000 = false
    ∧ get_authenticated_account [("s", ⟨"ACC1", 0⟩)] "s" = some "ACC1" :=
  (get_authenticated_account_spec [("s", ⟨"ACC1", 0⟩)] "s").2.2
    ⟨"ACC1", 0⟩ 1000 (by decide) (by decide)

/-- C8: `end_session(s)` removes the record for `s` when present and returns
true exactly when something was removed; afterwards no record for `s`
remains, so an immediately repeated call returns false, and on a store with
no record for `s` the call returns false and leaves the store unchanged. -/
theorem end_session_spec (store : SessionStore) (sid : String) :
    ((end_session store sid).1 = true ↔
      ∃ rec, storeLookup store sid = some rec)
    ∧ storeLookup (end_session store sid).2 sid = none
    ∧ (end_session (end_session store sid).2 sid).1 = false
    ∧ (storeLookup store sid = none → end_session store sid = (false, store)) := by
  rcases h : storeLookup store sid with _ | rec
  · refine ⟨by simp [end_session, h], ?_, ?_, fun _ => by simp [end_session, h]⟩
    · simp [end_session, h]
    · simp [end_session, h]
  · have hdel := storeLookup_delete_self store sid
    refine ⟨by simp [end_session, h], ?_, ?_, fun hnone => by cases hnone⟩
    · simp [end_session, h, hdel]
    · simp [end_session, h, hdel]

/-- Witness for C8: on the empty store, ending an unknown session returns
false and leaves the store unchanged. -/
theorem end_session_spec_witness :
    end_session [] "s" = (false, ([] : SessionStore)) :=
  (end_session_spec [] "s").2.2.2 rfl

/-- C9: `update_session_activity(s)` rewrites the record's `last_activity` to
the current time while preserving its account when a record for `s` exists,
is a silent no-op (store returned unchanged, no error) when none exists,
leaves records of all other session ids unchanged, and resets the expiry
window: after a refresh at `now`, the session is authenticated at any later
instant within `SESSION_TIMEOUT` of `now`, in particular past the original
900-second mark. -/
theorem update_session_activity_spec (store : SessionStore) (sid : String)
    (now : Int) :
    (∀ rec, storeLookup store sid = some rec →
      storeLookup (update_session_activity store sid now) sid
        = some ⟨rec.account, now⟩)
    ∧ (storeLookup store sid = none →
        update_session_activity store sid now = store)
    ∧ (∀ sid2, sid2 ≠ sid →
        storeLookup (update_session_activity store sid now) sid2
          = storeLookup store sid2)
    ∧ ∀ rec later, storeLookup store sid = some rec →
        later - now ≤ SESSION_TIMEOUT →
        is_authenticated (update_session_activity store sid now) sid later
          = true := by
  refine ⟨?_, ?_, ?_, ?_⟩
  · intro rec h
    simp only [update_session_activity, h]
    exact storeLookup_insert_self store sid ⟨rec.account, now⟩
  · intro h
    simp [update_session_activity, h]
  · intro sid2 h2
    rcases h : storeLookup store sid with _ | rec
    · simp [update_session_activity, h]
    · simp only [update_session_activity, h]
      exact storeLookup_insert_other store sid sid2 ⟨rec.account, now⟩ h2
  · intro rec later h hlate
    have hup := storeLookup_insert_self store sid ⟨rec.account, now⟩
    simp only [update_session_activity, h, is_authenticated, hup,
      decide_eq_true_eq]
    exact hlate

/-- Witness for C9: a session last active at time 0 is refreshed at time 800;
at time 1600 — past the original 900-second mark — it is still
authenticated. -/
theorem update_session_activity_spec_witness :
    is_authenticated (update_session_activity [("s", ⟨"ACC1", 0⟩)] "s" 800)
      "s" 1600 = true :=
  (update_session_activity_spec [("s", ⟨"ACC1", 0⟩)] "s" 800).2.2.2
    ⟨"ACC1", 0⟩ 1600 rfl (by decide)

/- Cleanup lemmas. -/

theorem mem_expired_iff_of_wf {store : SessionStore} (hwf : WFStore store)
    (now : Int) {p : String × SessionRecord} (hp : p ∈ store) :
    p.1 ∈ (cleanup_expired_sessions store now).1 ↔ isExpired now p = true := by
  simp only [cleanup_expired_sessions, List.mem_map, List.mem_filter]
  constructor
  · rintro ⟨q, ⟨hq, hqe⟩, hqp⟩
    have hq_eq : q = p := List.inj_on_of_nodup_map hwf hq hp hqp
    rwa [hq_eq] at hqe
  · intro hpe
    exact ⟨p, ⟨hp, hpe⟩, rfl⟩

theorem storeLookup_filter_none (store : SessionStore)
    (f : String × SessionRecord → Bool) (sid : String)
    (h : storeLookup store sid = none) :
    storeLookup (store.filter f) sid = none := by
  rw [storeLookup_eq_none_iff] at h ⊢
  intro hmem
  exact h (((List.filter_sublist store).map Prod.fst).subset hmem)

theorem cleanup_snd_eq_filter {store : SessionStore} (hwf : WFStore store)
    (now : Int) :
    (cleanup_expired_sessions store now).2
      = store.filter fun p => decide (now - p.2.lastActivity ≤ SESSION_TIMEOUT) := by
  have h1 : (cleanup_expired_sessions store now).2
      = deleteAll (cleanup_expired_sessions store now).1 store := rfl
  rw [h1, deleteAll_eq_filter]
  apply List.filter_congr
  intro p hp
  have h2 := mem_expired_iff_of_wf hwf now hp
  by_cases h3 : p.1 ∈ (cleanup_expired_sessions store now).1
  · have h4 : isExpired now p = true := h2.mp h3
    simp only [isExpired, decide_eq_true_eq] at h4
    simp [h3, show ¬(now - p.2.lastActivity ≤ SESSION_TIMEOUT) by omega]
  · have h4 : ¬isExpired now p = true := fun h5 => h3 (h2.mpr h5)
    simp only [isExpired, decide_eq_true_eq, not_lt] at h4
    simp [h3, h4]

/-- C2: `cleanup_expired_sessions` reads the clock once at entry (the single
`now` argument of the embedding), removes exactly the session ids with
`now - last_activity > SESSION_TIMEOUT` (strictly greater) and returns them:
the returned list is a subsequence of the store's keys in iteration order,
its members are exactly the ids whose record is stale, and afterwards
`get_authenticated_account` returns `none` for each returned id. -/
theorem cleanup_expired_sessions_spec (store : SessionStore) (now : Int)
    (hwf : WFStore store) :
    ((cleanup_expired_sessions store now).1).Sublist (store.map Prod.fst)
    ∧ (∀ sid, sid ∈ (cleanup_expired_sessions store now).1 ↔
        ∃ rec, storeLookup store sid = some rec ∧
          SESSION_TIMEOUT < now - rec.lastActivity)
    ∧ ∀ sid ∈ (cleanup_expired_sessions store now).1,
        get_authenticated_account (cleanup_expired_sessions store now).2 sid
          = none := by
  refine ⟨(List.filter_sublist store).map Prod.fst, ?_, ?_⟩
  · intro sid
    constructor
    · intro hmem
      simp only [cleanup_expired_sessions, List.mem_map, List.mem_filter]
        at hmem
      obtain ⟨p, ⟨hp, hpe⟩, hps⟩ := hmem
      refine ⟨p.2, ?_, ?_⟩
      · have : (sid, p.2) ∈ store := by
          rw [show (sid, p.2) = p from Prod.ext hps.symm rfl]
          exact hp
        exact storeLookup_eq_some_of_mem hwf this
      · simpa [isExpired] using hpe
    · rintro ⟨rec, hlook, hstale⟩
      have hmem : (sid, rec) ∈ store := mem_of_storeLookup_eq_some hlook
      have : (sid, rec).1 ∈ (cleanup_expired_sessions store now).1 :=
        (mem_expired_iff_of_wf hwf now hmem).mpr (by simpa [isExpired])
      exact this
  · intro sid hmem
    have h2 : (cleanup_expired_sessions store now).2
        = deleteAll (cleanup_expired_sessions store now).1 store := rfl
    rw [get_authenticated_account, h2, deleteAll_eq_filter,
      storeLookup_filter_of_mem_erased]
    · rfl
    · intro p _ hps
      simp [hps, hmem]

/-- Witness for C2: in a two-entry store holding a stale session "a"
(last active at 0) and a fresh session "b" (last active at 1000), cleanup at
time 1000 removes "a"; afterwards its account is absent. -/
theorem cleanup_expired_sessions_spec_witness :
    get_authenticated_account
      (cleanup_expired_sessions
        [("a", ⟨"ACC1", 0⟩), ("b", ⟨"ACC2", 1000⟩)] 1000).2 "a" = none :=
  (cleanup_expired_sessions_spec [("a", ⟨"ACC1", 0⟩), ("b", ⟨"ACC2", 1000⟩)]
    1000 (by decide)).2.2 "a" (by decide)

/-- C10 (implicit): at a fixed clock value, `cleanup_expired_sessions` keeps
exactly the records with `now - last_activity <= SESSION_TIMEOUT`, each
unchanged (same account and timestamp, as the remaining store is literally a
filter of the original); `is_authenticated` at the same instant is unchanged
for every session id; and an immediately repeated cleanup returns the empty
list and leaves the store as it was. -/
theorem cleanup_idempotent_spec (store : SessionStore) (now : Int)
    (hwf : WFStore store) :
    (cleanup_expired_sessions store now).2
        = store.filter (fun p => decide (now - p.2.lastActivity ≤ SESSION_TIMEOUT))
    ∧ (∀ sid, is_authenticated (cleanup_expired_sessions store now).2 sid now
        = is_authenticated store sid now)
    ∧ (cleanup_expired_sessions (cleanup_expired_sessions store now).2 now).1
        = []
    ∧ (cleanup_expired_sessions (cleanup_expired_sessions store now).2 now).2
        = (cleanup_expired_sessions store now).2 := by
  have hfil := cleanup_snd_eq_filter hwf now
  have hnil : ((cleanup_expired_sessions store now).2).filter (isExpired now)
      = [] := by
    rw [hfil, List.filter_filter, List.filter_eq_nil_iff]
    intro p _
    simp only [isExpired, Bool.and_eq_true, decide_eq_true_eq, not_and]
    omega
  refine ⟨hfil, ?_, ?_, ?_⟩
  · intro sid
    rcases h : storeLookup store sid with _ | rec
    · have hlook := storeLookup_filter_none store
        (fun p => decide (now - p.2.lastActivity ≤ SESSION_TIMEOUT)) sid h
      simp only [is_authenticated, h, hfil, hlook]
    · have hmem : (sid, rec) ∈ store := mem_of_storeLookup_eq_some h
      by_cases hstale : SESSION_TIMEOUT < now - rec.lastActivity
      · have hnone : storeLookup (cleanup_expired_sessions store now).2 sid
            = none := by
          rw [hfil]
          apply storeLookup_filter_of_mem_erased
          intro p hp hps
          have hp_eq : p = (sid, rec) :=
            List.inj_on_of_nodup_map hwf hp hmem hps
          simp [hp_eq, show ¬(now - rec.lastActivity ≤ SESSION_TIMEOUT) by omega]
        rw [is_authenticated, hnone, is_authenticated, h]
        simp [show ¬(now - rec.lastActivity ≤ SESSION_TIMEOUT) by omega]
      · have hsome : storeLookup (cleanup_expired_sessions store now).2 sid
            = some rec := by
          rw [hfil]
          apply storeLookup_eq_some_of_mem
          · exact ((List.filter_sublist store).map Prod.fst).nodup hwf
          · rw [List.mem_filter]
            exact ⟨hmem, by simp; omega⟩
        rw [is_authenticated, hsome, is_authenticated, h]
  · have h1 : (cleanup_expired_sessions (cleanup_expired_sessions store now).2
        now).1
      = (((cleanup_expired_sessions store now).2).filter (isExpired now)).map
          Prod.fst := rfl
    rw [h1, hnil]
    rfl
  · have h2 : (cleanup_expired_sessions (cleanup_expired_sessions store now).2
        now).2
      = deleteAll ((((cleanup_expired_sessions store now).2).filter
          (isExpired now)).map Prod.fst) (cleanup_expired_sessions store now).2
      := rfl
    rw [h2, hnil]
    rfl

/-- Witness for C10: on the two-entry store of the C2 scenario, cleanup at
time 1000 keeps exactly the fresh record, and a second cleanup at the same
instant collects nothing. -/
theorem cleanup_idempotent_spec_witness :
    (cleanup_expired_sessions
      (cleanup_expired_sessions
        [("a", ⟨"ACC1", 0⟩), ("b", ⟨"ACC2", 1000⟩)] 1000).2 1000).1 = [] :=
  (cleanup_idempotent_spec [("a", ⟨"ACC1", 0⟩), ("b", ⟨"ACC2", 1000⟩)] 1000
    (by decide)).2.2.1

/- Scan lemmas for the PIN extraction. -/

theorem scanToolCalls_skip_invalid (tcs : List ToolCall) (tc : ToolCall)
    (hname : tc.function.name = "validate_pin")
    (hargs : tc.function.arguments = ArgsPayload.invalid) :
    scanToolCalls (tc :: tcs) = scanToolCalls tcs := by
  simp [scanToolCalls, hname, hargs]

theorem scanToolCalls_nonObj (tcs : List ToolCall) (tc : ToolCall)
    (hname : tc.function.name = "validate_pin")
    (hargs : tc.function.arguments = ArgsPayload.nonObj) :
    scanToolCalls (tc :: tcs) = .error .attributeError := by
  simp [scanToolCalls, hname, hargs]

theorem scanToolCalls_pin (tcs : List ToolCall) (tc : ToolCall)
    (fields : List (String × String)) (pin : String)
    (hname : tc.function.name = "validate_pin")
    (hargs : tc.function.arguments = ArgsPayload.obj fields)
    (hpin : fields.lookup "pin" = some pin) (hne : pin ≠ "") :
    scanToolCalls (tc :: tcs) = .ok (some pin) := by
  simp [scanToolCalls, hname, hargs, hpin, hne]

theorem scanToolCalls_total (tcs : List ToolCall)
    (h : ∀ tc ∈ tcs, tc.function.name = "validate_pin" →
      tc.function.arguments ≠ ArgsPayload.nonObj) :
    ∃ r, scanToolCalls tcs = .ok r := by
  induction tcs with
  | nil => exact ⟨none, rfl⟩
  | cons tc rest ih =>
    have hrest := ih fun tc2 h2 => h tc2 (List.mem_cons_of_mem _ h2)
    by_cases hname : tc.function.name = "validate_pin"
    · rcases hargs : tc.function.arguments with fields | _ | _
      · rcases hpin : fields.lookup "pin" with _ | pin
        · simpa [scanToolCalls, hname, hargs, hpin] using hrest
        · by_cases hne : pin = ""
          · simpa [scanToolCalls, hname, hargs, hpin, hne] using hrest
          · exact ⟨some pin, by simp [scanToolCalls, hname, hargs, hpin, hne]⟩
      · exact absurd hargs (h tc (List.mem_cons_self _ _) hname)
      · simpa [scanToolCalls, hname, hargs] using hrest
    · simpa [scanToolCalls, hname] using hrest

theorem scanMessages_user_head (rest : List Message) (msg : Message)
    (hrole : msg.role = "user") (hlen : msg.content.length = 4)
    (hdig : pyIsDigit msg.content = true) :
    scanMessages (msg :: rest) = .ok (some msg.content) := by
  rw [scanMessages, if_pos ⟨hrole, hlen, hdig⟩]

theorem scanMessages_total (ms : List Message)
    (h : ∀ msg ∈ ms, ∀ tc ∈ msg.tool_calls.getD [],
      tc.function.name = "validate_pin" →
      tc.function.arguments ≠ ArgsPayload.nonObj) :
    ∃ r, scanMessages ms = .ok r := by
  induction ms with
  | nil => exact ⟨none, rfl⟩
  | cons msg rest ih =>
    have hrest := ih fun m hm => h m (List.mem_cons_of_mem _ hm)
    by_cases h1 : msg.role = "user" ∧ msg.content.length = 4 ∧
        pyIsDigit msg.content = true
    · exact ⟨some msg.content, by rw [scanMessages, if_pos h1]⟩
    · by_cases h2 : msg.role = "assistant"
      · rcases htc : msg.tool_calls with _ | tcs
        · obtain ⟨r, hr⟩ := hrest
          exact ⟨r, by rw [scanMessages, if_neg h1, if_pos h2, htc]; exact hr⟩
        · have htotal : ∀ tc ∈ tcs, tc.function.name = "validate_pin" →
              tc.function.arguments ≠ ArgsPayload.nonObj := by
            intro tc htc2
            have h3 := h msg (List.mem_cons_self _ _) tc
            rw [htc] at h3
            exact h3 (by simpa using htc2)
          obtain ⟨rt, hrt⟩ := scanToolCalls_total tcs htotal
          rcases rt with _ | pin
          · obtain ⟨r, hr⟩ := hrest
            refine ⟨r, ?_⟩
            rw [scanMessages, if_neg h1, if_pos h2, htc]
            simp only [hrt]
            exact hr
          · refine ⟨some pin, ?_⟩
            rw [scanMessages, if_neg h1, if_pos h2, htc]
            simp only [hrt]
      · obtain ⟨r, hr⟩ := hrest
        exact ⟨r, by rw [scanMessages, if_neg h1, if_neg h2]; exact hr⟩

theorem scanMessages_eq_none (ms : List Message)
    (h : ∀ msg ∈ ms, scanMessages [msg] = .ok none) :
    scanMessages ms = .ok none := by
  induction ms with
  | nil => rfl
  | cons msg rest ih =>
    have hrest := ih fun m hm => h m (List.mem_cons_of_mem _ hm)
    have hmsg := h msg (List.mem_cons_self _ _)
    by_cases h1 : msg.role = "user" ∧ msg.content.length = 4 ∧
        pyIsDigit msg.content = true
    · rw [scanMessages, if_pos h1] at hmsg
      cases hmsg
    · by_cases h2 : msg.role = "assistant"
      · rcases htc : msg.tool_calls with _ | tcs
        · rw [scanMessages, if_neg h1, if_pos h2, htc]
          exact hrest
        · rw [scanMessages, if_neg h1, if_pos h2, htc] at hmsg ⊢
          rcases hsc : scanToolCalls tcs with e | r
          · simp [hsc] at hmsg
          · rcases r with _ | pin
            · simp only [hsc]
              exact hrest
            · simp [hsc] at hmsg
      · rw [scanMessages, if_neg h1, if_neg h2]
        exact hrest

/-- C5: the scan runs from most recent message to oldest: when the most
recent message has role "user" and content of exactly 4 characters, all
decimal digits, that content is returned and the scan stops, whatever the
older messages hold; `[{role:"user", content:"1234"}]` yields "1234", while
"12a4" and "12345" match nothing; and when every message of the conversation
matches no pattern (its singleton scan yields nothing), the result is
absent. -/
theorem extract_pin_user_spec (conv : List Message) (msg : Message)
    (hrole : msg.role = "user") (hlen : msg.content.length = 4)
    (hdig : pyIsDigit msg.content = true) :
    get_cached_pin_from_conversation (conv ++ [msg]) = .ok (some msg.content)
    ∧ get_cached_pin_from_conversation [⟨"user", "1234", none⟩]
        = .ok (some "1234")
    ∧ get_cached_pin_from_conversation [⟨"user", "12a4", none⟩] = .ok none
    ∧ get_cached_pin_from_conversation [⟨"user", "12345", none⟩] = .ok none
    ∧ ∀ conv2 : List Message, (∀ m ∈ conv2, scanMessages [m] = .ok none) →
        get_cached_pin_from_conversation conv2 = .ok none := by
  refine ⟨?_, rfl, rfl, rfl, ?_⟩
  · rw [get_cached_pin_from_conversation, List.reverse_append,
      List.reverse_singleton, List.singleton_append]
    exact scanMessages_user_head _ msg hrole hlen hdig
  · intro conv2 h2
    rw [get_cached_pin_from_conversation]
    exact scanMessages_eq_none _ fun m hm => h2 m (List.mem_reverse.mp hm)

/-- Witness for C5: a user message "4321" as the most recent message of a
two-message conversation is found and returned. -/
theorem extract_pin_user_spec_witness :
    get_cached_pin_from_conversation
      ([⟨"assistant", "hello", none⟩] ++ [⟨"user", "4321", none⟩])
      = .ok (some "4321") :=
  (extract_pin_user_spec [⟨"assistant", "hello", none⟩]
    ⟨"user", "4321", none⟩ rfl rfl rfl).1

/-- Counterexample to C4 as stated: a `validate_pin` invocation whose
argument payload is malformed for the purpose — it parses (as JSON) to a
non-record value, e.g. the payload "[1]" — is not treated as "this
invocation does not match": `json.loads` succeeds, so the
`except json.JSONDecodeError` clause is bypassed, and `args.get("pin")`
raises an uncaught `AttributeError` that propagates to the caller instead of
the scan continuing to return `None`. -/
theorem pin_error_handling_counterexample :
    get_cached_pin_from_conversation
      [⟨"assistant", "", some [⟨⟨"validate_pin", ArgsPayload.nonObj⟩⟩]⟩]
      = .error .attributeError
    ∧ get_cached_pin_from_conversation
      [⟨"assistant", "", some [⟨⟨"validate_pin", ArgsPayload.nonObj⟩⟩]⟩]
      ≠ .ok none :=
  ⟨rfl, fun h => Except.noConfusion h⟩

/-- C4 amended: an argument payload of a `validate_pin` invocation on which
JSON parsing fails (raises `JSONDecodeError`) is caught and treated as "this
invocation does not match" — the scan continues — and is never propagated to
the caller; extraction is total on every conversation whose `validate_pin`
payloads do not parse to a non-record value (such a payload raises an
uncaught `AttributeError`); and the store operations are total over their
inputs, unknown session identifiers yielding absent/false/no-op outcomes. -/
theorem pin_error_handling_amended :
    (∀ (tcs : List ToolCall) (tc : ToolCall),
      tc.function.name = "validate_pin" →
      tc.function.arguments = ArgsPayload.invalid →
      scanToolCalls (tc :: tcs) = scanToolCalls tcs)
    ∧ (∀ conv : List Message,
        (∀ msg ∈ conv, ∀ tc ∈ msg.tool_calls.getD [],
          tc.function.name = "validate_pin" →
          tc.function.arguments ≠ ArgsPayload.nonObj) →
        ∃ r, get_cached_pin_from_conversation conv = .ok r)
    ∧ ∀ (store : SessionStore) (sid : String),
        storeLookup store sid = none →
        get_authenticated_account store sid = none
        ∧ (∀ now, is_authenticated store sid now = false)
        ∧ (∀ now, update_session_activity store sid now = store)
        ∧ end_session store sid = (false, store) := by
  refine ⟨?_, ?_, ?_⟩
  · intro tcs tc hname hargs
    exact scanToolCalls_skip_invalid tcs tc hname hargs
  · intro conv h
    rw [get_cached_pin_from_conversation]
    exact scanMessages_total conv.reverse
      fun m hm => h m (List.mem_reverse.mp hm)
  · intro store sid h
    refine ⟨by simp [get_authenticated_account, h], ?_, ?_, ?_⟩
    · intro now
      simp [is_authenticated, h]
    · intro now
      simp [update_session_activity, h]
    · simp [end_session, h]

/-- Witness for the amended C4: a `validate_pin` call whose payload raises
`JSONDecodeError` (e.g. "not-json") is skipped in place, the inner scan
continuing with the remaining invocations; and the unknown session id
"ghost" yields absent on the empty store. -/
theorem pin_error_handling_amended_witness :
    scanToolCalls [⟨⟨"validate_pin", ArgsPayload.invalid⟩⟩,
        ⟨⟨"validate_pin", ArgsPayload.obj [("pin", "9999")]⟩⟩]
      = scanToolCalls [⟨⟨"validate_pin", ArgsPayload.obj [("pin", "9999")]⟩⟩]
    ∧ get_authenticated_account [] "ghost" = none :=
  ⟨pin_error_handling_amended.1
      [⟨⟨"validate_pin", ArgsPayload.obj [("pin", "9999")]⟩⟩]
      ⟨⟨"validate_pin", ArgsPayload.invalid⟩⟩ rfl rfl,
   (pin_error_handling_amended.2.2 [] "ghost" rfl).1⟩

/-- Counterexample to C6 as stated: in an assistant message carrying two
`validate_pin` invocations, the first with a payload that does not parse as
a structured record (it parses as JSON to a non-record value) and the second
with the well-formed payload for pin "5678", the claim requires the first to
be skipped and "5678" returned; the code instead raises an uncaught
`AttributeError` on the first. -/
theorem extract_pin_tool_counterexample :
    get_cached_pin_from_conversation
      [⟨"assistant", "", some
        [⟨⟨"validate_pin", ArgsPayload.nonObj⟩⟩,
         ⟨⟨"validate_pin", ArgsPayload.obj [("pin", "5678")]⟩⟩]⟩]
      = .error .attributeError
    ∧ get_cached_pin_from_conversation
      [⟨"assistant", "", some
        [⟨⟨"validate_pin", ArgsPayload.nonObj⟩⟩,
         ⟨⟨"validate_pin", ArgsPayload.obj [("pin", "5678")]⟩⟩]⟩]
      ≠ .ok (some "5678") :=
  ⟨rfl, fun h => Except.noConfusion h⟩

/-- C6 amended: iterating an assistant message's invocations in order, an
invocation named `validate_pin` whose payload fails JSON parsing is skipped
and the scan continues; one whose payload parses to a record with a present,
non-empty `pin` argument returns that pin; one whose payload parses to a
non-record value raises an uncaught error; and the spec's concrete example
(an assistant message with a `validate_pin` call whose arguments parse to
{"pin": "5678"}) yields "5678". -/
theorem extract_pin_tool_spec_amended (tcs : List ToolCall) (tc : ToolCall)
    (hname : tc.function.name = "validate_pin") :
    (tc.function.arguments = ArgsPayload.invalid →
      scanToolCalls (tc :: tcs) = scanToolCalls tcs)
    ∧ (∀ fields pin, tc.function.arguments = ArgsPayload.obj fields →
        fields.lookup "pin" = some pin → pin ≠ "" →
        scanToolCalls (tc :: tcs) = .ok (some pin))
    ∧ (tc.function.arguments = ArgsPayload.nonObj →
        scanToolCalls (tc :: tcs) = .error .attributeError)
    ∧ get_cached_pin_from_conversation
        [⟨"assistant", "", some
          [⟨⟨"validate_pin", ArgsPayload.obj [("pin", "5678")]⟩⟩]⟩]
        = .ok (some "5678") := by
  refine ⟨?_, ?_, ?_, rfl⟩
  · intro hargs
    exact scanToolCalls_skip_invalid tcs tc hname hargs
  · intro fields pin hargs hpin hne
    exact scanToolCalls_pin tcs tc fields pin hname hargs hpin hne
  · intro hargs
    exact scanToolCalls_nonObj tcs tc hname hargs

/-- Witness for the amended C6: a concrete `validate_pin` invocation with
payload parsing to {"pin": "5678"} at the head of an empty tail returns
"5678". -/
theorem extract_pin_tool_spec_amended_witness :
    scanToolCalls [⟨⟨"validate_pin", ArgsPayload.obj [("pin", "5678")]⟩⟩]
      = .ok (some "5678") :=
  (extract_pin_tool_spec_amended []
      ⟨⟨"validate_pin", ArgsPayload.obj [("pin", "5678")]⟩⟩ rfl).2.1
    [("pin", "5678")] "5678" rfl rfl (by decide)
